import Mathlib

/-!
Shallow embedding of the `csplotter` package (files `genbank.py` and
`circos_config.py`): sliding-window GC metrics, GenBank feature
extraction, and the Circos radial-band layout, together with theorems
settling the specification claims.

Python floats are modelled by `ℚ` (the claims only involve exact values),
Python ints by `Int`/`Nat`, optional values by `Option`, and exceptions by
explicit branching, mirroring the `try/except` sites of the source.
-/

namespace CsPlotter

/-! ### Sliding-window metrics (`genbank.py`, `Genbank.gc_skew` / `Genbank.gc_content`) -/

/-- Positions visited by Python's `range(i, n, step)` (the loop header
`for i in range(0, len(seq), step_size)`), written with structural
recursion on a fuel argument so that it reduces in the kernel; `fuel = n`
is enough whenever `0 < step`. -/
def rangeStepAux (fuel i n step : Nat) : List Nat :=
  match fuel with
  | 0 => []
  | fuel + 1 => if i < n then i :: rangeStepAux fuel (i + step) n step else []

/-- Python `range(0, n, step)`. -/
def rangeStep (n step : Nat) : List Nat :=
  rangeStepAux n 0 n step

/-- The clamped window bounds computed at loop index `i` in `gc_skew` and
`gc_content`: `start_pos = i - int(window_size / 2)` clamped below at `0`,
`end_pos = i + int(window_size / 2)` clamped above at `n`.  Python's
`int(window_size / 2)` is truncating halving, modelled by `Nat` division. -/
def windowBounds (n ws i : Nat) : Int × Int :=
  let half : Nat := ws / 2
  let sp : Int := (i : Int) - (half : Int)
  let sp : Int := if sp < 0 then 0 else sp
  let ep : Int := (i : Int) + (half : Int)
  let ep : Int := if ep > (n : Int) then (n : Int) else ep
  (sp, ep)

/-- The subsequence `seq[start_pos:end_pos]` taken at loop index `i`. -/
def windowSeq (seq : List Char) (ws i : Nat) : List Char :=
  let b := windowBounds seq.length ws i
  (seq.take b.2.toNat).drop b.1.toNat

/-- `subseq.count("G") + subseq.count("g")`. -/
def countG (s : List Char) : Nat :=
  s.count 'G' + s.count 'g'

/-- `subseq.count("C") + subseq.count("c")`. -/
def countC (s : List Char) : Nat :=
  s.count 'C' + s.count 'c'

/-- The per-window skew value: `(g - c) / float(g + c)`, with the
`except ZeroDivisionError` branch returning `0.0` modelled by the explicit
zero test (the function is total, so no error can propagate). -/
def skewValue (seq : List Char) (ws i : Nat) : ℚ :=
  let sub := windowSeq seq ws i
  let g := countG sub
  let c := countC sub
  if g + c = 0 then 0 else ((g : ℚ) - (c : ℚ)) / ((g : ℚ) + (c : ℚ))

/-- `Genbank.gc_skew`, as a function of the first record's sequence. -/
def gc_skew (seq : List Char) (ws ss : Nat) : List ℚ :=
  (rangeStep seq.length ss).map (skewValue seq ws)

/-- Count of the bases Biopython's `SeqUtils.GC` treats as G+C
(`G`, `C` and the ambiguity code `S`, either case). -/
def countGCS (s : List Char) : Nat :=
  s.count 'G' + s.count 'g' + s.count 'C' + s.count 'c' + s.count 'S' + s.count 's'

/-- Biopython `SeqUtils.GC`: G+C percentage of a sequence, `0` on the
empty sequence (its `except ZeroDivisionError` branch). -/
def gcPercent (s : List Char) : ℚ :=
  if s.length = 0 then 0 else 100 * (countGCS s : ℚ) / (s.length : ℚ)

/-- `Genbank.gc_content`, as a function of the first record's sequence. -/
def gc_content (seq : List Char) (ws ss : Nat) : List ℚ :=
  (rangeStep seq.length ss).map (fun i => gcPercent (windowSeq seq ws i))

/-- `Genbank.average_gc`: `SeqUtils.GC` of the whole first-record sequence. -/
def average_gc (seq : List Char) : ℚ :=
  gcPercent seq

/-! ### Feature extraction (`genbank.py`, `Genbank.extract_all_features`) -/

/-- A Biopython `SeqFeature`, restricted to the fields the code reads:
`type`, the first value of the `translation` / `protein_id` / `product`
qualifiers (`none` when the qualifier is absent), `location.parts[0].start`,
`location.parts[-1].end`, and `strand` (`none` for an unstranded feature). -/
structure SeqFeature where
  ftype : String
  translation : Option String
  protein_id : Option String
  product : Option String
  partsFirstStart : Int
  partsLastEnd : Int
  strand : Option Int
deriving DecidableEq, Repr

/-- A Biopython `SeqRecord`, restricted to its feature list. -/
structure SeqRecord where
  features : List SeqFeature
deriving DecidableEq, Repr

/-- The `Genbank` object: the parsed records (`self._records`). -/
structure Genbank where
  records : List SeqRecord
deriving DecidableEq, Repr

instance : Inhabited SeqRecord := ⟨⟨[]⟩⟩

/-- `self._first_record = self._records[0]` (records are nonempty for any
parseable GenBank file). -/
def Genbank.firstRecord (gb : Genbank) : SeqRecord :=
  gb.records.headD default

/-- All features of all records, in record order then feature order. -/
def Genbank.allFeatures (gb : Genbank) : List SeqFeature :=
  (gb.records.map SeqRecord.features).flatten

/-- The first, type-only filtering phase of `extract_all_features`
(lines 88-97): keep the features whose `type` is in `feature_types`,
either from the first record only or from every record. -/
def typeFilteredFeatures (gb : Genbank) (featureTypes : List String)
    (onlyFirstRecord : Bool) : List SeqFeature :=
  if onlyFirstRecord then
    gb.firstRecord.features.filter (fun f => featureTypes.contains f.ftype)
  else
    (gb.records.map (fun r => r.features.filter
      (fun f => featureTypes.contains f.ftype))).flatten

/-- The strand test `target_strand is None or target_strand == feature.strand`.
Python compares an `int` against `int`-or-`None`; `int == None` is `False`. -/
def strandMatch (targetStrand : Option Int) (fstrand : Option Int) : Bool :=
  match targetStrand with
  | none => true
  | some t => fstrand == some t

/-- `Genbank.extract_all_features`: type filtering, then — only when
`"CDS"` is among the requested types — exclusion of features without a
`translation` qualifier, of features with `parts[0].start > parts[-1].end`,
and of features failing the strand test. -/
def extract_all_features (gb : Genbank) (featureTypes : List String)
    (targetStrand : Option Int) (onlyFirstRecord : Bool) : List SeqFeature :=
  let features := typeFilteredFeatures gb featureTypes onlyFirstRecord
  if !featureTypes.contains "CDS" then
    features
  else
    features.filter (fun f =>
      f.translation.isSome
      && !(decide (f.partsFirstStart > f.partsLastEnd))
      && strandMatch targetStrand f.strand)

/-- One record of the emitted protein FASTA. -/
structure FastaRecord where
  id : String
  description : String
  seq : String
deriving DecidableEq, Repr

/-- Zero-padded six-digit rendering of `n`, as in `f"GENE{idx:06d}"`. -/
def pad6 (n : Nat) : String :=
  let s := toString n
  String.mk (List.replicate (6 - s.length) '0') ++ s

/-- The FASTA-record construction loop of
`Genbank.write_cds_protein_features_fasta` (lines 126-142): enumerate the
features from 1, skip those without a translation, use `protein_id` as the
record id when present and `GENE{idx:06d}` otherwise, `product` (default
`""`) as the description, and the translation as the sequence. -/
def cdsToFastaRecords (features : List SeqFeature) : List FastaRecord :=
  features.enum.filterMap (fun p =>
    match p.2.translation with
    | none => none
    | some tr =>
      let seqId := match p.2.protein_id with
        | none => "GENE" ++ pad6 (p.1 + 1)
        | some pid => pid
      some ⟨seqId, (p.2.product).getD "", tr⟩)

/-- Python booleans compare as the integers 0 and 1. -/
def boolToInt (b : Bool) : Int :=
  if b then 1 else 0

/-- `Genbank.write_cds_protein_features_fasta` (its in-memory record list):
the call `self.extract_all_features(["CDS"], only_first_record)` passes the
flag positionally as `target_strand` (a Python `bool`, comparing as 0 or 1)
and leaves `only_first_record` at its default `False`. -/
def write_cds_protein_features_fasta (gb : Genbank)
    (onlyFirstRecord : Bool) : List FastaRecord :=
  let features := extract_all_features gb ["CDS"]
    (some (boolToInt onlyFirstRecord)) false
  cdsToFastaRecords features

/-! ### Radial layout and metric tracks (`circos_config.py`, `CircosConfig`) -/

/-- The initial radius counter `self._r_counter = 1.0`. -/
def rCounterInit : ℚ := 1

/-- `self._feature_r = 0.05`. -/
def featureR : ℚ := 0.05

/-- `self._gc_content_r = 0.15`. -/
def gcContentR : ℚ := 0.15

/-- `self._gc_skew_r = 0.15`. -/
def gcSkewR : ℚ := 0.15

/-- The radius band written into a plot block: `r0` (inner) and `r1`
(outer), in units of `r`. -/
structure TrackBand where
  r0 : ℚ
  r1 : ℚ
deriving DecidableEq, Repr

/-- The radius part of `CircosConfig._add_feature`: the plot block uses
`r0 = r_counter - feature_r`, `r1 = r_counter`, then
`r_counter -= feature_r`.  Returns the new counter and the band. -/
def addFeatureBand (r featR : ℚ) : ℚ × TrackBand :=
  (r - featR, ⟨r - featR, r⟩)

/-- The clamp `self._r_counter = 0.6 if self._r_counter > 0.6 else self._r_counter`
opening `_add_gc_skew` and `_add_gc_content`. -/
def clampMetric (r : ℚ) : ℚ :=
  if r > 0.6 then 0.6 else r

/-- Python `max` over a nonempty list (`max(...)` raises `ValueError` on an
empty argument; the `[]` case is a placeholder never reached from the
callers, which pass one value per window and the genome has length ≥ 1). -/
def pyMax : List ℚ → ℚ
  | [] => 0
  | v :: vs => vs.foldl max v

/-- `max(abs(v) for v in values)`. -/
def maxAbsValue (values : List ℚ) : ℚ :=
  pyMax (values.map abs)

/-- One `main {pos} {pos} {value} fill_color={color}` data line. -/
structure MetricLine where
  pos : Nat
  value : ℚ
  color : String
deriving DecidableEq, Repr

/-- The data lines written by `_write_gc_skew_file` / `_write_gc_content_file`
from a value series: position `i * step_size`, the value, and the positive
color exactly when the value is `> 0`. -/
def metricFileLines (values : List ℚ) (ss : Nat) (pColor nColor : String) :
    List MetricLine :=
  values.enum.map (fun p =>
    ⟨p.1 * ss, p.2, if p.2 > 0 then pColor else nColor⟩)

/-- `CircosConfig._write_gc_skew_file`: writes the raw `gc_skew` series and
returns `max(abs(v) for v in gc_skew_values)`. -/
def write_gc_skew_file (seq : List Char) (ws ss : Nat) (pColor nColor : String) :
    List MetricLine × ℚ :=
  let values := gc_skew seq ws ss
  (metricFileLines values ss pColor nColor, maxAbsValue values)

/-- `CircosConfig._write_gc_content_file`: the written values are the
windowed GC contents each minus `self.ref_gbk.average_gc`; returns
`max(abs(v) for v in gc_content_values)` over those adjusted values. -/
def write_gc_content_file (seq : List Char) (ws ss : Nat) (pColor nColor : String) :
    List MetricLine × ℚ :=
  let values := (gc_content seq ws ss).map (fun v => v - average_gc seq)
  (metricFileLines values ss pColor nColor, maxAbsValue values)

/-- The numeric parameters of a metric plot block: the band plus the
declared `min`/`max`. -/
structure MetricPlot where
  band : TrackBand
  minVal : ℚ
  maxVal : ℚ
deriving DecidableEq, Repr

/-- `CircosConfig._add_gc_skew`: clamp the counter at 0.6, write the data
file, emit `r0 = r_counter - gc_skew_r`, `r1 = r_counter`,
`min = -abs_max`, `max = abs_max`, then subtract `gc_skew_r`.  Returns the
new counter and the plot parameters. -/
def add_gc_skew (r : ℚ) (seq : List Char) (ws ss : Nat)
    (pColor nColor : String) : ℚ × MetricPlot :=
  let r := clampMetric r
  let absMax := (write_gc_skew_file seq ws ss pColor nColor).2
  (r - gcSkewR, ⟨⟨r - gcSkewR, r⟩, -absMax, absMax⟩)

/-- `CircosConfig._add_gc_content`: same shape as `_add_gc_skew`, over the
average-adjusted GC-content series and thickness `gc_content_r`. -/
def add_gc_content (r : ℚ) (seq : List Char) (ws ss : Nat)
    (pColor nColor : String) : ℚ × MetricPlot :=
  let r := clampMetric r
  let absMax := (write_gc_content_file seq ws ss pColor nColor).2
  (r - gcContentR, ⟨⟨r - gcContentR, r⟩, -absMax, absMax⟩)

/-- One allocator call as issued by `write_config_file`: a feature band or
a metric band, with its thickness. -/
inductive AllocStep where
  | feature (t : ℚ)
  | metric (t : ℚ)
deriving DecidableEq, Repr

/-- The thickness requested by a step. -/
def AllocStep.thickness : AllocStep → ℚ
  | .feature t => t
  | .metric t => t

/-- Effect of one allocator call on the radius counter (`_add_feature`
subtracts; `_add_gc_content` / `_add_gc_skew` clamp at 0.6 then subtract). -/
def applyStep (r : ℚ) : AllocStep → ℚ
  | .feature t => r - t
  | .metric t => clampMetric r - t

/-- The successive values of `self._r_counter`, starting value included. -/
def rTrajectory (r : ℚ) (steps : List AllocStep) : List ℚ :=
  steps.scanl applyStep r

/-- The allocator calls issued by one `CircosConfig.write_config_file` run:
forward CDS, reverse CDS, rRNA and tRNA feature bands, then the GC-content
and GC-skew metric bands. -/
def writeConfigSteps : List AllocStep :=
  [.feature featureR, .feature featureR, .feature featureR, .feature featureR,
   .metric gcContentR, .metric gcSkewR]

/-! ### Concrete inputs used to instantiate the theorems -/

/-- An rRNA feature carrying no `translation` qualifier. -/
def rrnaNoTranslation : SeqFeature :=
  ⟨"rRNA", none, none, none, 0, 10, some 1⟩

/-- A GenBank file whose single record holds only `rrnaNoTranslation`. -/
def gbRRnaOnly : Genbank :=
  ⟨[⟨[rrnaNoTranslation]⟩]⟩

/-- A translated forward-strand CDS feature. -/
def cdsGood : SeqFeature :=
  ⟨"CDS", some "MKL", some "P1", some "hypothetical protein", 0, 9, some 1⟩

/-- A CDS feature without a `translation` qualifier (pseudogene). -/
def cdsNoTranslation : SeqFeature :=
  ⟨"CDS", none, none, none, 0, 9, some 1⟩

/-- An origin-straddling CDS feature (`parts[0].start > parts[-1].end`). -/
def cdsStraddle : SeqFeature :=
  ⟨"CDS", some "MST", none, none, 50, 9, some 1⟩

/-- A translated reverse-strand CDS feature. -/
def cdsReverse : SeqFeature :=
  ⟨"CDS", some "MNP", none, none, 0, 9, some (-1)⟩

/-- A two-record GenBank input mixing valid and excluded CDS features. -/
def gbCds : Genbank :=
  ⟨[⟨[cdsGood, cdsNoTranslation, cdsStraddle]⟩, ⟨[cdsReverse]⟩]⟩

/-- A two-record GenBank input with CDS features on both strands plus an
unstranded rRNA feature. -/
def gbFastaInput : Genbank :=
  ⟨[⟨[⟨"CDS", some "MAA", some "WP1", some "p1", 0, 8, some 1⟩,
      ⟨"CDS", some "MBB", none, none, 2, 20, some (-1)⟩]⟩,
    ⟨[⟨"CDS", some "MCC", none, none, 1, 7, some 1⟩,
      ⟨"rRNA", none, none, none, 0, 5, none⟩]⟩]⟩

/-- The ten-base sequence of the end-to-end window example: its `[0,2)`
window holds one G and no C, its `[3,7)` window no G and no C. -/
def exampleSeq10 : List Char :=
  "GATTTTTGCC".toList

/-- A short sequence for instantiating the metric-track theorems. -/
def exampleSeq8 : List Char :=
  "GGCATTAC".toList

end CsPlotter

namespace CsPlotter

/-! ### Helper lemmas about `rangeStep` -/

/-- Ceiling division written as the spec writes it. -/
def ceilDivNat (n step : Nat) : Nat :=
  (n + step - 1) / step

theorem rangeStepAux_eq_map (step : Nat) (hstep : 0 < step) :
    ∀ (fuel i n : Nat), n ≤ i + fuel * step →
      rangeStepAux fuel i n step
        = (List.range (ceilDivNat (n - i) step)).map (fun k => i + k * step) := by
  intro fuel
  induction fuel with
  | zero =>
    intro i n h
    have hni : n - i = 0 := by omega
    simp [rangeStepAux, ceilDivNat, hni, Nat.div_eq_of_lt (by omega : step - 1 < step)]
  | succ fuel ih =>
    intro i n h
    by_cases hin : i < n
    · have hrec := ih (i + step) n (by
        have hs : (fuel + 1) * step = fuel * step + step := Nat.succ_mul fuel step
        omega)
      have hceil : ceilDivNat (n - i) step = ceilDivNat (n - (i + step)) step + 1 := by
        unfold ceilDivNat
        by_cases hns : i + step ≤ n
        · have h1 : n - i + step - 1 = (n - (i + step) + step - 1) + step := by omega
          rw [h1, Nat.add_div_right _ hstep]
        · have h2 : n - (i + step) = 0 := by omega
          have h3 : n - (i + step) + step - 1 = step - 1 := by omega
          have h4 : (step - 1) / step = 0 := Nat.div_eq_of_lt (by omega)
          have h5 : (n - i + step - 1) / step = 1 := by
            apply Nat.div_eq_of_lt_le
            · omega
            · omega
          rw [h2] at *
          rw [h3, h4, h5]
      rw [rangeStepAux, if_pos hin, hrec, hceil, List.range_succ_eq_map]
      simp only [List.map_cons, List.map_map, Nat.zero_mul, Nat.add_zero]
      refine congrArg (i :: ·) ?_
      apply List.map_congr_left
      intro k _
      simp only [Function.comp, Nat.succ_mul]
      ring
    · have hni : n - i = 0 := by omega
      simp [rangeStepAux, hin, ceilDivNat, hni,
        Nat.div_eq_of_lt (by omega : step - 1 < step)]

theorem rangeStep_eq_map (n step : Nat) (hstep : 0 < step) :
    rangeStep n step = (List.range (ceilDivNat n step)).map (fun k => k * step) := by
  have h0 : n ≤ n * step := Nat.le_mul_of_pos_right n hstep
  have h := rangeStepAux_eq_map step hstep n 0 n (by omega)
  simpa [rangeStep] using h

theorem rangeStep_length (n step : Nat) (hstep : 0 < step) :
    (rangeStep n step).length = ceilDivNat n step := by
  rw [rangeStep_eq_map n step hstep]
  simp

theorem rangeStep_getD (n step : Nat) (hstep : 0 < step) (k : Nat)
    (hk : k < ceilDivNat n step) : (rangeStep n step).getD k 0 = k * step := by
  rw [rangeStep_eq_map n step hstep]
  rw [List.getD_eq_getElem _ _ (by simpa using hk)]
  simp

/-! ### Helper lemmas about `pyMax` -/

theorem pyMax_cons (v : ℚ) (vs : List ℚ) : pyMax (v :: vs) = vs.foldl max v :=
  rfl

theorem init_le_foldl_max (v : ℚ) (vs : List ℚ) : v ≤ vs.foldl max v := by
  induction vs generalizing v with
  | nil => exact le_refl v
  | cons a vs ih => exact le_trans (le_max_left v a) (ih (max v a))

theorem mem_le_foldl_max (x v : ℚ) (vs : List ℚ) (hx : x ∈ vs) :
    x ≤ vs.foldl max v := by
  induction vs generalizing v with
  | nil => cases hx
  | cons a vs ih =>
    rcases List.mem_cons.1 hx with h | h
    · subst h
      exact le_trans (le_max_right v x) (init_le_foldl_max _ vs)
    · exact ih (max v a) h

theorem foldl_max_mem (v : ℚ) (vs : List ℚ) :
    vs.foldl max v = v ∨ vs.foldl max v ∈ vs := by
  induction vs generalizing v with
  | nil => exact Or.inl rfl
  | cons a vs ih =>
    rcases ih (max v a) with h | h
    · rcases max_choice v a with hm | hm
      · exact Or.inl (by rw [List.foldl_cons, h, hm])
      · exact Or.inr (by rw [List.foldl_cons, h, hm]; exact List.mem_cons_self a vs)
    · exact Or.inr (List.mem_cons_of_mem a h)

theorem le_pyMax {x : ℚ} {l : List ℚ} (hx : x ∈ l) : x ≤ pyMax l := by
  cases l with
  | nil => cases hx
  | cons v vs =>
    rcases List.mem_cons.1 hx with h | h
    · subst h
      exact init_le_foldl_max x vs
    · exact mem_le_foldl_max x v vs h

theorem pyMax_mem {l : List ℚ} (hl : l ≠ []) : pyMax l ∈ l := by
  cases l with
  | nil => exact absurd rfl hl
  | cons v vs =>
    rcases foldl_max_mem v vs with h | h
    · rw [pyMax_cons, h]
      exact List.mem_cons_self v vs
    · rw [pyMax_cons]
      exact List.mem_cons_of_mem v h

theorem abs_le_maxAbsValue {v : ℚ} {l : List ℚ} (h : v ∈ l) :
    |v| ≤ maxAbsValue l :=
  le_pyMax (List.mem_map_of_mem abs h)

theorem maxAbsValue_eq_abs_mem {l : List ℚ} (hl : l ≠ []) :
    ∃ v ∈ l, |v| = maxAbsValue l := by
  have h := pyMax_mem (l := l.map abs) (by simpa using hl)
  rcases List.mem_map.1 h with ⟨v, hv, he⟩
  exact ⟨v, hv, he⟩

/-! ### Helper lemmas about the metric data files -/

theorem metricFileLines_map_value (values : List ℚ) (ss : Nat) (pc nc : String) :
    (metricFileLines values ss pc nc).map MetricLine.value = values := by
  unfold metricFileLines
  rw [List.map_map]
  have h : (MetricLine.value ∘ fun p : Nat × ℚ =>
      (⟨p.1 * ss, p.2, if p.2 > 0 then pc else nc⟩ : MetricLine)) = Prod.snd := rfl
  rw [h, List.enum_map_snd]

theorem metricFileLines_length (values : List ℚ) (ss : Nat) (pc nc : String) :
    (metricFileLines values ss pc nc).length = values.length := by
  simp [metricFileLines]

theorem metricFileLines_getD (values : List ℚ) (ss : Nat) (pc nc : String)
    (k : Nat) (hk : k < values.length) (d : MetricLine) :
    (metricFileLines values ss pc nc).getD k d
      = ⟨k * ss, values[k], if values[k] > 0 then pc else nc⟩ := by
  rw [List.getD_eq_getElem _ _ (by simpa [metricFileLines_length] using hk)]
  unfold metricFileLines
  rw [List.getElem_map, List.getElem_enum]

theorem rangeStep_getElem (n step : Nat) (hstep : 0 < step) (k : Nat)
    (hk : k < (rangeStep n step).length) : (rangeStep n step)[k] = k * step := by
  rw [List.getElem_of_eq (rangeStep_eq_map n step hstep), List.getElem_map,
    List.getElem_range]

/-! ### Claim theorems -/

/-- C3: for a sequence of length N ≥ 1 and positive window and step sizes,
`gc_skew` and `gc_content` iterate over positions 0, step, 2·step, … below
N, producing exactly `ceil(N / step)` values; the k-th value is the metric
of the window at position `k * step`, and every window's bounds are
`max 0 (i - ws/2)` and `min N (i + ws/2)` (truncating halving), hence lie
within `[0, N]`. -/
theorem claim_C3_window_iteration (seq : List Char) (ws ss : Nat)
    (hN : 1 ≤ seq.length) (hws : 0 < ws) (hss : 0 < ss) :
    (gc_skew seq ws ss).length = (seq.length + ss - 1) / ss
  ∧ (gc_content seq ws ss).length = (seq.length + ss - 1) / ss
  ∧ (∀ k, k < (seq.length + ss - 1) / ss →
      (gc_skew seq ws ss).getD k 0 = skewValue seq ws (k * ss)
      ∧ (gc_content seq ws ss).getD k 0 = gcPercent (windowSeq seq ws (k * ss)))
  ∧ (∀ i, i < seq.length →
      windowBounds seq.length ws i
        = (max 0 ((i : Int) - ((ws / 2 : Nat) : Int)),
           min (seq.length : Int) ((i : Int) + ((ws / 2 : Nat) : Int)))
      ∧ 0 ≤ (windowBounds seq.length ws i).1
      ∧ (windowBounds seq.length ws i).1 ≤ (windowBounds seq.length ws i).2
      ∧ (windowBounds seq.length ws i).2 ≤ (seq.length : Int)) := by
  have hlen := rangeStep_length seq.length ss hss
  refine ⟨?_, ?_, ?_, ?_⟩
  · simpa [gc_skew, ceilDivNat] using hlen
  · simpa [gc_content, ceilDivNat] using hlen
  · intro k hk
    have hk' : k < (rangeStep seq.length ss).length := by
      rw [hlen]; simpa [ceilDivNat] using hk
    constructor
    · rw [gc_skew, List.getD_eq_getElem _ _ (by simpa using hk'), List.getElem_map,
        rangeStep_getElem seq.length ss hss k hk']
    · rw [gc_content, List.getD_eq_getElem _ _ (by simpa using hk'), List.getElem_map,
        rangeStep_getElem seq.length ss hss k hk']
  · intro i hi
    refine ⟨?_, ?_, ?_, ?_⟩
    · refine Prod.ext ?_ ?_ <;> dsimp only [windowBounds] <;> split_ifs <;> omega
    · dsimp only [windowBounds]; split_ifs <;> omega
    · dsimp only [windowBounds]; split_ifs <;> omega
    · dsimp only [windowBounds]; split_ifs <;> omega

/-- C3 instantiated: a length-10 sequence with step 5 yields 2 windows. -/
theorem claim_C3_witness :
    1 ≤ exampleSeq10.length ∧ 0 < 4 ∧ 0 < 5
  ∧ (gc_skew exampleSeq10 4 5).length = (exampleSeq10.length + 5 - 1) / 5 :=
  ⟨by decide, by decide, by decide,
   (claim_C3_window_iteration exampleSeq10 4 5 (by decide) (by decide) (by decide)).1⟩

/-- C2 counterexample: with N = 10, window_size = 4, step_size = 5, the
window at i = 5 has the bounds `[3, 7)` computed by the code, not the
`[3, 10)` stated by the claim (5 + 4/2 = 7 needs no clamping). -/
theorem claim_C2_counterexample :
    windowBounds 10 4 5 = ((3 : Int), (7 : Int))
  ∧ ((3 : Int), (7 : Int)) ≠ (((3 : Int), (10 : Int)) : Int × Int) := by
  decide

/-- C2 amended: for any sequence of length 10 with window_size 4 and
step_size 5 there are exactly 2 windows at positions 0 and 5; the window
at i = 0 covers `[0, 2)` and the one at i = 5 covers `[3, 7)`; if the
i = 0 window holds 1 G and 0 C its skew is exactly 1, and if the i = 5
window holds no G and no C its skew is exactly 0. -/
theorem claim_C2_window_example (seq : List Char) (h : seq.length = 10) :
    rangeStep seq.length 5 = [0, 5]
  ∧ windowBounds seq.length 4 0 = ((0 : Int), (2 : Int))
  ∧ windowBounds seq.length 4 5 = ((3 : Int), (7 : Int))
  ∧ (gc_skew seq 4 5).length = 2
  ∧ (countG (windowSeq seq 4 0) = 1 → countC (windowSeq seq 4 0) = 0 →
      (gc_skew seq 4 5).getD 0 0 = 1)
  ∧ (countG (windowSeq seq 4 5) = 0 → countC (windowSeq seq 4 5) = 0 →
      (gc_skew seq 4 5).getD 1 0 = 0) := by
  have hr : rangeStep 10 5 = [0, 5] := by decide
  refine ⟨by rw [h]; exact hr, by rw [h]; decide, by rw [h]; decide, ?_, ?_, ?_⟩
  · rw [gc_skew, h, hr]; rfl
  · intro hg hc
    rw [gc_skew, h, hr]
    simp only [List.map_cons, List.map_nil, List.getD_cons_zero]
    simp [skewValue, hg, hc]
  · intro hg hc
    rw [gc_skew, h, hr]
    simp only [List.map_cons, List.map_nil, List.getD_cons_succ, List.getD_cons_zero]
    simp [skewValue, hg, hc]

/-- C2 amended, instantiated on the sequence `GATTTTTGCC`. -/
theorem claim_C2_witness :
    exampleSeq10.length = 10
  ∧ countG (windowSeq exampleSeq10 4 0) = 1 ∧ countC (windowSeq exampleSeq10 4 0) = 0
  ∧ countG (windowSeq exampleSeq10 4 5) = 0 ∧ countC (windowSeq exampleSeq10 4 5) = 0
  ∧ (gc_skew exampleSeq10 4 5).getD 0 0 = 1
  ∧ (gc_skew exampleSeq10 4 5).getD 1 0 = 0 :=
  ⟨by decide, by decide, by decide, by decide, by decide,
   (claim_C2_window_example exampleSeq10 (by decide)).2.2.2.2.1 (by decide) (by decide),
   (claim_C2_window_example exampleSeq10 (by decide)).2.2.2.2.2 (by decide) (by decide)⟩

/-- C4: a window with no G and no C gets skew exactly 0 (the
`ZeroDivisionError` branch, modelled by the total `if`), any other window
gets `(G - C) / (G + C)`, and every emitted skew value is the skew of one
of the iterated windows. -/
theorem claim_C4_zero_division_policy (seq : List Char) (ws ss i : Nat) :
    (countG (windowSeq seq ws i) + countC (windowSeq seq ws i) = 0 →
      skewValue seq ws i = 0)
  ∧ (countG (windowSeq seq ws i) + countC (windowSeq seq ws i) ≠ 0 →
      skewValue seq ws i
        = ((countG (windowSeq seq ws i) : ℚ) - (countC (windowSeq seq ws i) : ℚ))
          / ((countG (windowSeq seq ws i) : ℚ) + (countC (windowSeq seq ws i) : ℚ)))
  ∧ (∀ v ∈ gc_skew seq ws ss, ∃ j ∈ rangeStep seq.length ss, v = skewValue seq ws j) := by
  refine ⟨?_, ?_, ?_⟩
  · intro h0
    simp [skewValue, h0]
  · intro h0
    simp [skewValue, h0]
  · intro v hv
    rcases List.mem_map.1 hv with ⟨j, hj, he⟩
    exact ⟨j, hj, he.symm⟩

/-- C4 instantiated: the all-T window of `GATTTTTGCC` at i = 5 has skew 0. -/
theorem claim_C4_witness :
    countG (windowSeq exampleSeq10 4 5) + countC (windowSeq exampleSeq10 4 5) = 0
  ∧ skewValue exampleSeq10 4 5 = 0 :=
  ⟨by decide, (claim_C4_zero_division_policy exampleSeq10 4 5 5).1 (by decide)⟩

/-- C1 counterexample: requesting the types `{"CDS", "rRNA"}` on a record
whose only feature is an rRNA without a translation qualifier returns
nothing — the type filter alone keeps the rRNA feature, but the
translation filter of the CDS branch then drops it, so a non-CDS feature
is not returned regardless of its translation qualifier. -/
theorem claim_C1_counterexample :
    typeFilteredFeatures gbRRnaOnly ["CDS", "rRNA"] false = [rrnaNoTranslation]
  ∧ extract_all_features gbRRnaOnly ["CDS", "rRNA"] none false = [] := by
  decide

/-- C1 amended: features are filtered by type only when `"CDS"` is not
among the requested types; when `"CDS"` is requested, the
translation/straddle/strand filter is applied to every type-matching
feature, non-CDS features included. -/
theorem claim_C1_type_only_filter (gb : Genbank) (types : List String)
    (target : Option Int) (ofr : Bool) :
    (types.contains "CDS" = false →
      extract_all_features gb types target ofr = typeFilteredFeatures gb types ofr)
  ∧ (types.contains "CDS" = true →
      ∀ f, f ∈ extract_all_features gb types target ofr ↔
        (f ∈ typeFilteredFeatures gb types ofr ∧ f.translation.isSome = true
          ∧ f.partsFirstStart ≤ f.partsLastEnd ∧ strandMatch target f.strand = true)) := by
  constructor
  · intro h
    have h' : "CDS" ∉ types := by simpa using h
    simp [extract_all_features, h']
  · intro h f
    have h' : "CDS" ∈ types := by simpa using h
    simp [extract_all_features, h', List.mem_filter, not_lt, and_assoc]

/-- C1 amended, instantiated: with only `"rRNA"` requested, the rRNA
feature is returned untouched by the translation filter. -/
theorem claim_C1_witness :
    ((["rRNA"] : List String).contains "CDS" = false)
  ∧ extract_all_features gbRRnaOnly ["rRNA"] none false
      = typeFilteredFeatures gbRRnaOnly ["rRNA"] false :=
  ⟨by decide, (claim_C1_type_only_filter gbRRnaOnly ["rRNA"] none false).1 (by decide)⟩

/-- C5: with `"CDS"` among the requested types, every returned feature has
a translation qualifier, satisfies first-part start ≤ last-part end, and
matches the target strand exactly when one is given; when the type filter
matches nothing the result is empty rather than an error. -/
theorem claim_C5_cds_validity (gb : Genbank) (types : List String)
    (target : Option Int) (ofr : Bool) (hcds : types.contains "CDS" = true) :
    (∀ f ∈ extract_all_features gb types target ofr,
        f.translation.isSome = true
      ∧ f.partsFirstStart ≤ f.partsLastEnd
      ∧ ∀ t : Int, target = some t → f.strand = some t)
  ∧ (typeFilteredFeatures gb types ofr = [] →
      extract_all_features gb types target ofr = []) := by
  constructor
  · intro f hf
    simp only [extract_all_features, hcds, Bool.not_true, Bool.false_eq_true,
      if_false, List.mem_filter, Bool.and_eq_true, Bool.not_eq_true',
      decide_eq_false_iff_not, not_lt] at hf
    refine ⟨hf.2.1.1, hf.2.1.2, ?_⟩
    intro t ht
    subst ht
    have hs := hf.2.2
    simp only [strandMatch, beq_iff_eq] at hs
    exact hs
  · intro hempty
    simp [extract_all_features, hcds, hempty]

/-- C5 instantiated: on a two-record input the only surviving feature of a
forward-strand CDS extraction is the translated, non-straddling,
forward-strand one, and it has all three properties. -/
theorem claim_C5_witness :
    (["CDS"] : List String).contains "CDS" = true
  ∧ extract_all_features gbCds ["CDS"] (some 1) false = [cdsGood]
  ∧ cdsGood.translation.isSome = true
  ∧ cdsGood.partsFirstStart ≤ cdsGood.partsLastEnd
  ∧ cdsGood.strand = some 1 :=
  have h := (claim_C5_cds_validity gbCds ["CDS"] (some 1) false (by decide)).1
    cdsGood (by decide)
  ⟨by decide, by decide, h.1, h.2.1, h.2.2 1 rfl⟩

/-- With `only_first_record = False`, the type-filter phase runs over all
records, so it equals a plain filter of the concatenated feature lists. -/
theorem typeFiltered_false_eq (gb : Genbank) (types : List String) :
    typeFilteredFeatures gb types false
      = gb.allFeatures.filter (fun f => types.contains f.ftype) := by
  show (gb.records.map (fun r => r.features.filter
      (fun f => types.contains f.ftype))).flatten = _
  rw [Genbank.allFeatures, List.filter_flatten, List.map_map]
  rfl

/-- A CDS extraction over all records is one filter over all features. -/
theorem extract_cds_false (gb : Genbank) (target : Option Int) :
    extract_all_features gb ["CDS"] target false
      = gb.allFeatures.filter (fun f =>
          (f.translation.isSome
            && !(decide (f.partsFirstStart > f.partsLastEnd))
            && strandMatch target f.strand)
          && (["CDS"] : List String).contains f.ftype) := by
  show (typeFilteredFeatures gb ["CDS"] false).filter _ = _
  rw [typeFiltered_false_eq, List.filter_filter]

/-- C10: under the Biopython strand values `{+1, -1, None}`, the FASTA
writer with `only_first_record = False` (passed positionally as the
`target_strand` of the extractor, comparing as the integer 0) writes
nothing, and with `only_first_record = True` (comparing as the integer 1)
writes exactly the translated, non-straddling, forward-strand CDS features
gathered from all records. -/
theorem claim_C10_strand_bool_confusion (gb : Genbank)
    (hstrand : ∀ f ∈ gb.allFeatures,
      f.strand = some 1 ∨ f.strand = some (-1) ∨ f.strand = none) :
    write_cds_protein_features_fasta gb false = []
  ∧ write_cds_protein_features_fasta gb true
      = cdsToFastaRecords (gb.allFeatures.filter (fun f =>
          f.ftype == "CDS" && f.translation.isSome
            && decide (f.partsFirstStart ≤ f.partsLastEnd)
            && f.strand == some 1)) := by
  constructor
  · have hnil : extract_all_features gb ["CDS"] (some 0) false = [] := by
      rw [extract_cds_false, List.filter_eq_nil_iff]
      intro f hf
      rcases hstrand f hf with h | h | h <;> simp [strandMatch, h]
    show cdsToFastaRecords (extract_all_features gb ["CDS"] (some 0) false) = []
    rw [hnil]
    rfl
  · show cdsToFastaRecords (extract_all_features gb ["CDS"] (some 1) false) = _
    rw [extract_cds_false]
    congr 1
    apply List.filter_congr
    intro f hf
    have hd : (!(decide (f.partsFirstStart > f.partsLastEnd)))
        = decide (f.partsFirstStart ≤ f.partsLastEnd) := by
      rw [← decide_not]
      exact decide_eq_decide.2 (by omega)
    have hm : strandMatch (some 1) f.strand = (f.strand == some 1) := rfl
    have hc : ((["CDS"] : List String).contains f.ftype) = (f.ftype == "CDS") := by
      by_cases he : f.ftype = "CDS"
      · simp [he]
      · simp [he, Ne.symm he]
    rw [hd, hm, hc]
    simp [Bool.and_comm, Bool.and_left_comm, Bool.and_assoc]

/-- The clamp of the metric allocators is exactly `min r 0.6`. -/
theorem clampMetric_eq_min (r : ℚ) : clampMetric r = min r 0.6 := by
  rw [clampMetric, min_def]
  split_ifs with h1 h2 <;> first | rfl | linarith

/-- C6: both metric-band allocators clamp the radius counter to
`min (r_counter, 0.6)` before reserving the band, so a metric band's outer
radius never exceeds 0.6 regardless of the unused radius above it. -/
theorem claim_C6_metric_band_cap (r : ℚ) (seq : List Char) (ws ss : Nat)
    (pc nc pc2 nc2 : String) :
    (add_gc_skew r seq ws ss pc nc).2.band.r1 = min r 0.6
  ∧ (add_gc_skew r seq ws ss pc nc).2.band.r1 ≤ 0.6
  ∧ (add_gc_content r seq ws ss pc2 nc2).2.band.r1 = min r 0.6
  ∧ (add_gc_content r seq ws ss pc2 nc2).2.band.r1 ≤ 0.6 := by
  have h1 : (add_gc_skew r seq ws ss pc nc).2.band.r1 = clampMetric r := rfl
  have h2 : (add_gc_content r seq ws ss pc2 nc2).2.band.r1 = clampMetric r := rfl
  rw [h1, h2, clampMetric_eq_min]
  exact ⟨rfl, min_le_right r 0.6, rfl, min_le_right r 0.6⟩

/-- One allocator call never increases the counter when its thickness is
nonnegative. -/
theorem applyStep_le (r : ℚ) (s : AllocStep) (h : 0 ≤ s.thickness) :
    applyStep r s ≤ r := by
  cases s with
  | feature t =>
    simp only [AllocStep.thickness] at h
    simp only [applyStep]
    linarith
  | metric t =>
    simp only [AllocStep.thickness] at h
    simp only [applyStep, clampMetric]
    split_ifs with hc <;> linarith

/-- The trajectory starts at the seed value. -/
theorem rTrajectory_head (r : ℚ) (steps : List AllocStep) :
    (rTrajectory r steps).head? = some r := by
  cases steps <;> rfl

/-- C7: the counter starts at 1.0 and is non-increasing across any
allocation sequence with nonnegative thicknesses; over the full
`write_config_file` call order (four 0.05 feature bands, then the clamped
0.15 GC-content and GC-skew bands) every value it takes lies in `[0, 1]`. -/
theorem claim_C7_radius_monotone :
    rCounterInit = 1
  ∧ (∀ (r : ℚ) (steps : List AllocStep),
      (∀ s ∈ steps, 0 ≤ s.thickness) →
      List.Chain' (fun a b => b ≤ a) (rTrajectory r steps))
  ∧ (∀ x ∈ rTrajectory rCounterInit writeConfigSteps, 0 ≤ x ∧ x ≤ 1) := by
  refine ⟨rfl, ?_, ?_⟩
  · intro r steps
    induction steps generalizing r with
    | nil =>
      intro _
      simp [rTrajectory]
    | cons s steps ih =>
      intro hpos
      rw [rTrajectory, List.scanl_cons, List.singleton_append, List.chain'_cons']
      constructor
      · intro y hy
        rw [show List.scanl applyStep (applyStep r s) steps
            = rTrajectory (applyStep r s) steps from rfl, rTrajectory_head] at hy
        simp only [Option.mem_def, Option.some.injEq] at hy
        subst hy
        exact applyStep_le r s (hpos s (List.mem_cons_self s steps))
      · exact ih (applyStep r s) (fun s' hs' => hpos s' (List.mem_cons_of_mem _ hs'))
  · intro x hx
    have hl : rTrajectory rCounterInit writeConfigSteps
        = [1, 19/20, 9/10, 17/20, 4/5, 9/20, 3/10] := by
      norm_num [rTrajectory, List.scanl_cons, List.scanl_nil, writeConfigSteps,
        applyStep, clampMetric, rCounterInit, featureR, gcContentR, gcSkewR]
    rw [hl] at hx
    simp only [List.mem_cons, List.not_mem_nil, or_false] at hx
    rcases hx with rfl | rfl | rfl | rfl | rfl | rfl | rfl <;> norm_num

/-- C7 instantiated: the `write_config_file` trajectory is non-increasing. -/
theorem claim_C7_witness :
    List.Chain' (fun a b => b ≤ a) (rTrajectory 1 writeConfigSteps) :=
  claim_C7_radius_monotone.2.1 1 writeConfigSteps (by
    intro s hs
    fin_cases hs <;> norm_num [AllocStep.thickness, featureR, gcContentR, gcSkewR])

/-- The GC-skew data file carries exactly the `gc_skew` series. -/
theorem write_gc_skew_file_fst (seq : List Char) (ws ss : Nat) (pc nc : String) :
    (write_gc_skew_file seq ws ss pc nc).1
      = metricFileLines (gc_skew seq ws ss) ss pc nc :=
  rfl

/-- The GC-content data file carries the average-adjusted series. -/
theorem write_gc_content_file_fst (seq : List Char) (ws ss : Nat) (pc nc : String) :
    (write_gc_content_file seq ws ss pc nc).1
      = metricFileLines ((gc_content seq ws ss).map (fun v => v - average_gc seq))
          ss pc nc :=
  rfl

/-- The values of the written GC-skew lines are the `gc_skew` series. -/
theorem write_gc_skew_file_values (seq : List Char) (ws ss : Nat) (pc nc : String) :
    ((write_gc_skew_file seq ws ss pc nc).1).map MetricLine.value
      = gc_skew seq ws ss := by
  rw [write_gc_skew_file_fst]
  exact metricFileLines_map_value _ _ _ _

/-- The values of the written GC-content lines are the adjusted series. -/
theorem write_gc_content_file_values (seq : List Char) (ws ss : Nat) (pc nc : String) :
    ((write_gc_content_file seq ws ss pc nc).1).map MetricLine.value
      = (gc_content seq ws ss).map (fun v => v - average_gc seq) := by
  rw [write_gc_content_file_fst]
  exact metricFileLines_map_value _ _ _ _

/-- C8: each metric plot block declares `min = -abs_max` and
`max = abs_max`, where `abs_max` is the maximum of `|value|` over the
series written to that track's data file (an upper bound that is attained
by some written line). -/
theorem claim_C8_symmetric_scaling (r r2 : ℚ) (seq : List Char) (ws ss : Nat)
    (pc nc pc2 nc2 : String) :
    ((add_gc_skew r seq ws ss pc nc).2.minVal
        = -maxAbsValue (((write_gc_skew_file seq ws ss pc nc).1).map MetricLine.value)
      ∧ (add_gc_skew r seq ws ss pc nc).2.maxVal
        = maxAbsValue (((write_gc_skew_file seq ws ss pc nc).1).map MetricLine.value))
  ∧ ((write_gc_skew_file seq ws ss pc nc).1 ≠ [] →
      (∀ l ∈ (write_gc_skew_file seq ws ss pc nc).1,
          |l.value| ≤ (add_gc_skew r seq ws ss pc nc).2.maxVal)
      ∧ ∃ l ∈ (write_gc_skew_file seq ws ss pc nc).1,
          |l.value| = (add_gc_skew r seq ws ss pc nc).2.maxVal)
  ∧ ((add_gc_content r2 seq ws ss pc2 nc2).2.minVal
        = -maxAbsValue (((write_gc_content_file seq ws ss pc2 nc2).1).map MetricLine.value)
      ∧ (add_gc_content r2 seq ws ss pc2 nc2).2.maxVal
        = maxAbsValue (((write_gc_content_file seq ws ss pc2 nc2).1).map MetricLine.value))
  ∧ ((write_gc_content_file seq ws ss pc2 nc2).1 ≠ [] →
      (∀ l ∈ (write_gc_content_file seq ws ss pc2 nc2).1,
          |l.value| ≤ (add_gc_content r2 seq ws ss pc2 nc2).2.maxVal)
      ∧ ∃ l ∈ (write_gc_content_file seq ws ss pc2 nc2).1,
          |l.value| = (add_gc_content r2 seq ws ss pc2 nc2).2.maxVal) := by
  refine ⟨⟨?_, ?_⟩, ?_, ⟨?_, ?_⟩, ?_⟩
  · rw [write_gc_skew_file_values]
    rfl
  · rw [write_gc_skew_file_values]
    rfl
  · intro hne
    have hmv := write_gc_skew_file_values seq ws ss pc nc
    have hne' : gc_skew seq ws ss ≠ [] := by
      intro hcon
      apply hne
      rw [hcon] at hmv
      exact List.map_eq_nil_iff.1 hmv
    constructor
    · intro l hl
      show |l.value| ≤ maxAbsValue (gc_skew seq ws ss)
      exact abs_le_maxAbsValue (hmv ▸ List.mem_map_of_mem MetricLine.value hl)
    · obtain ⟨v, hvmem, hveq⟩ := maxAbsValue_eq_abs_mem hne'
      rw [← hmv] at hvmem
      rcases List.mem_map.1 hvmem with ⟨l, hl, hlv⟩
      refine ⟨l, hl, ?_⟩
      show |l.value| = maxAbsValue (gc_skew seq ws ss)
      rw [hlv, hveq]
  · rw [write_gc_content_file_values]
    rfl
  · rw [write_gc_content_file_values]
    rfl
  · intro hne
    have hmv := write_gc_content_file_values seq ws ss pc2 nc2
    have hne' : (gc_content seq ws ss).map (fun v => v - average_gc seq) ≠ [] := by
      intro hcon
      apply hne
      rw [hcon] at hmv
      exact List.map_eq_nil_iff.1 hmv
    constructor
    · intro l hl
      show |l.value| ≤ maxAbsValue ((gc_content seq ws ss).map (fun v => v - average_gc seq))
      exact abs_le_maxAbsValue (hmv ▸ List.mem_map_of_mem MetricLine.value hl)
    · obtain ⟨v, hvmem, hveq⟩ := maxAbsValue_eq_abs_mem hne'
      rw [← hmv] at hvmem
      rcases List.mem_map.1 hvmem with ⟨l, hl, hlv⟩
      refine ⟨l, hl, ?_⟩
      show |l.value| = maxAbsValue ((gc_content seq ws ss).map (fun v => v - average_gc seq))
      rw [hlv, hveq]

/-- C8 instantiated: the GC-skew series of `GGCATTAC` attains the declared
`max` in one of its written lines. -/
theorem claim_C8_witness :
    (write_gc_skew_file exampleSeq8 4 3 "blue" "orange").1 ≠ []
  ∧ ∃ l ∈ (write_gc_skew_file exampleSeq8 4 3 "blue" "orange").1,
      |l.value| = (add_gc_skew 1 exampleSeq8 4 3 "blue" "orange").2.maxVal :=
  ⟨by decide,
   ((claim_C8_symmetric_scaling 1 1 exampleSeq8 4 3 "blue" "orange" "black" "grey").2.1
     (by decide)).2⟩

/-- C9: each value written to the GC-content data file is the windowed GC
content minus the whole-sequence average GC, so it is positive (and gets
the positive color) exactly when the window exceeds the genome-wide
average; the track's `abs_max` is computed from the adjusted series. -/
theorem claim_C9_gc_content_baseline (seq : List Char) (ws ss : Nat)
    (pc nc : String) (k : Nat) (hk : k < (gc_content seq ws ss).length) :
    ((write_gc_content_file seq ws ss pc nc).1.getD k ⟨0, 0, ""⟩).value
      = (gc_content seq ws ss).getD k 0 - average_gc seq
  ∧ (0 < ((write_gc_content_file seq ws ss pc nc).1.getD k ⟨0, 0, ""⟩).value
      ↔ average_gc seq < (gc_content seq ws ss).getD k 0)
  ∧ ((write_gc_content_file seq ws ss pc nc).1.getD k ⟨0, 0, ""⟩).color
      = (if average_gc seq < (gc_content seq ws ss).getD k 0 then pc else nc)
  ∧ (write_gc_content_file seq ws ss pc nc).2
      = maxAbsValue ((gc_content seq ws ss).map (fun v => v - average_gc seq)) := by
  have hk2 : k < ((gc_content seq ws ss).map (fun v => v - average_gc seq)).length := by
    simpa using hk
  have hline := metricFileLines_getD
    ((gc_content seq ws ss).map (fun v => v - average_gc seq)) ss pc nc k hk2 ⟨0, 0, ""⟩
  have hgd : (gc_content seq ws ss).getD k 0 = (gc_content seq ws ss)[k] :=
    List.getD_eq_getElem _ _ hk
  rw [write_gc_content_file_fst, hline]
  refine ⟨?_, ?_, ?_, rfl⟩
  · rw [List.getElem_map, hgd]
  · rw [List.getElem_map, hgd]
    exact sub_pos
  · rw [List.getElem_map, hgd]
    exact if_congr sub_pos rfl rfl

/-- C9 instantiated: the first written GC-content value of `GGCATTAC` is
its first windowed GC content minus the sequence average. -/
theorem claim_C9_witness :
    0 < (gc_content exampleSeq8 4 3).length
  ∧ ((write_gc_content_file exampleSeq8 4 3 "black" "grey").1.getD 0 ⟨0, 0, ""⟩).value
      = (gc_content exampleSeq8 4 3).getD 0 0 - average_gc exampleSeq8 :=
  ⟨by decide,
   (claim_C9_gc_content_baseline exampleSeq8 4 3 "black" "grey" 0 (by decide)).1⟩

/-- C10 instantiated on a two-record input with both strands present. -/
theorem claim_C10_witness :
    write_cds_protein_features_fasta gbFastaInput false = []
  ∧ write_cds_protein_features_fasta gbFastaInput true
      = cdsToFastaRecords (gbFastaInput.allFeatures.filter (fun f =>
          f.ftype == "CDS" && f.translation.isSome
            && decide (f.partsFirstStart ≤ f.partsLastEnd)
            && f.strand == some 1)) :=
  claim_C10_strand_bool_confusion gbFastaInput (by decide)

end CsPlotter
